import Mathlib

/-!
Formal model of the conversation/knowledge/token-budget orchestration pipeline
of the hands-and-fire chat backend.

The definitions below are shallow embeddings of the TypeScript sources:
  * `src/src/services/ai/sessionManager.ts`
  * `src/src/services/ai/knowledgeBase.ts`
  * `src/src/services/ai/openai.ts` (the current revision, i.e. the second
    document in the file, whose `generateReply` carries the
    `knowledgeContext` report field)
  * `src/src/prompts/fallback.ts`
JavaScript numbers that are used as integral milliseconds or token counts are
modelled as `Int`/`Nat`; vector distances and similarity scores are modelled
as `Rat`.  External collaborators (embedding generator, vector store, chat
completion, reply normalizer) are parameters of the embedded functions, as
are the clock instants produced by `Date.now()` / `new Date()`.

The conversation history service (`conversationHistory.ts`) is imported by
`openai.ts` but its source file is not part of the repository snapshot; its
operations are modelled from the spec where marked.
-/

namespace HFChat

/-- Role of a chat message (`system`, `user`, `assistant`). -/
inductive Role where
  | system
  | user
  | assistant
deriving DecidableEq, Repr

/-- Chat message: a role plus content.  The OpenAI message type allows
string, `null`, or structured array content; `some s` models string content
and `none` models any non-string content (`null` or multi-part array). -/
structure ChatMessage where
  role : Role
  content : Option String
deriving DecidableEq, Repr

/-- System-role message with string content. -/
def systemMsg (s : String) : ChatMessage := ⟨Role.system, some s⟩

/-- User-role message with string content. -/
def userMsg (s : String) : ChatMessage := ⟨Role.user, some s⟩

/-- Knowledge entry (`{title, source}`) from `knowledgeBase.ts`.  The service
always fills `source` with a string (defaulting to `"unknown"`). -/
structure KnowledgeEntry where
  title : String
  source : String
deriving DecidableEq, Repr

/-- Knowledge context: the rendered system message plus the structured
entry list, from `knowledgeBase.ts`. -/
structure KnowledgeContext where
  message : ChatMessage
  entries : List KnowledgeEntry
deriving DecidableEq, Repr

/-! ## Session manager (`sessionManager.ts`)

The `Map<string, SessionData>` is modelled as a function from conversation
ids to optional session data; `Date` instants are modelled as `Int`
milliseconds, and the current instant (`new Date()` / `Date.now()`) is an
explicit argument of each operation. -/

/-- Session data: `startTime` and `lastActivity` in epoch milliseconds. -/
structure SessionData where
  startTime : Int
  lastActivity : Int
deriving DecidableEq, Repr

/-- Session store keyed by conversation id. -/
def SessionMap := String → Option SessionData

/-- Empty session store (a fresh `Map`). -/
def emptySessions : SessionMap := fun _ => none

/-- Embeds `isSessionExpired`: `false` when no session exists, otherwise
`now - lastActivity >= sessionTimeoutMs`. -/
def isSessionExpired (sessionTimeoutMs : Int) (sessions : SessionMap)
    (conversationId : String) (now : Int) : Bool :=
  match sessions conversationId with
  | none => false
  | some session => decide (sessionTimeoutMs ≤ now - session.lastActivity)

/-- Embeds `updateActivity`: update `lastActivity` of an existing session,
or create a fresh session with `startTime = lastActivity = now`. -/
def updateActivity (now : Int) (sessions : SessionMap)
    (conversationId : String) : SessionMap :=
  fun k =>
    if k = conversationId then
      match sessions conversationId with
      | some existing => some ⟨existing.startTime, now⟩
      | none => some ⟨now, now⟩
    else sessions k

/-- Embeds `resetSession`: delete the session if present. -/
def resetSession (sessions : SessionMap) (conversationId : String) :
    SessionMap :=
  fun k => if k = conversationId then none else sessions k

/-- Embeds `getSessionAgeMs`: `null` when no session, else `now - startTime`. -/
def getSessionAgeMs (sessions : SessionMap) (conversationId : String)
    (now : Int) : Option Int :=
  (sessions conversationId).map (fun session => now - session.startTime)

/-- Embeds `getTimeUntilExpirationMs`: `null` when no session, else
`max 0 (sessionTimeoutMs - (now - lastActivity))`. -/
def getTimeUntilExpirationMs (sessionTimeoutMs : Int) (sessions : SessionMap)
    (conversationId : String) (now : Int) : Option Int :=
  (sessions conversationId).map
    (fun session => max 0 (sessionTimeoutMs - (now - session.lastActivity)))

/-- Well-formedness of a session store at clock instant `clock`: every stored
session was created and touched at instants no later than `clock`, with
`startTime ≤ lastActivity`. -/
def sessionsWF (sessions : SessionMap) (clock : Int) : Prop :=
  ∀ id session, sessions id = some session →
    session.startTime ≤ session.lastActivity ∧ session.lastActivity ≤ clock

/-! ## Fallback prompt data (`prompts/fallback.ts`) -/

/-- Fixed fallback reply for factual queries with no knowledge context. -/
def fallbackResponse : String :=
  "אין לי מידע מדויק על זה כרגע. אבדוק עם הצוות ואחזור אליך."

/-- Factual-intent keyword list from `prompts/fallback.ts`. -/
def factualQueryKeywords : List String :=
  ["מחיר", "מחירים", "תשלום", "כמה עולה", "עלות", "זמן", "שעה", "מתי",
   "תאריך", "מועד", "כתובת", "מיקום", "איפה", "נמצא", "ביטול", "מדיניות",
   "החזר", "להחזיר", "קיבולת", "כמה אנשים", "מקום", "מתאים"]

/-- Models `String.prototype.toLowerCase` (ASCII lowering; the Hebrew
keywords are unaffected). -/
def jsToLower (s : String) : String := String.mk (s.data.map Char.toLower)

/-- Occurrence check on character lists: `pat` occurs (contiguously) in the
scanned list; an empty pattern occurs everywhere. -/
def listContainsSub (pat : List Char) : List Char → Bool
  | [] => pat.isEmpty
  | c :: rest => pat.isPrefixOf (c :: rest) || listContainsSub pat rest

/-- Models `String.prototype.includes`: the pattern occurs in `s`. -/
def jsIncludes (s pat : String) : Bool :=
  listContainsSub pat.data s.data

/-- Models `String.prototype.startsWith`. -/
def jsStartsWith (s pat : String) : Bool :=
  pat.data.isPrefixOf s.data

/-- Splitting loop for `String.prototype.split` with a single-character
separator, carrying the current segment in reverse. -/
def splitLinesGo : List Char → List Char → List (List Char)
  | [], acc => [acc.reverse]
  | c :: rest, acc =>
    if c = '\n' then acc.reverse :: splitLinesGo rest []
    else splitLinesGo rest (c :: acc)

/-- Models `fullContent.split("\n")`. -/
def jsSplitLines (s : String) : List String :=
  (splitLinesGo s.data []).map String.mk

/-- Models the JavaScript truthiness of `line.trim()`: the line contains at
least one non-whitespace character. -/
def hasNonWhitespace (s : String) : Bool :=
  s.data.any (fun c => !c.isWhitespace)

/-- Embeds `isFactualQuery` from `openai.ts`: case-insensitive substring
match against the keyword list. -/
def isFactualQuery (message : String) : Bool :=
  factualQueryKeywords.any
    (fun keyword => jsIncludes (jsToLower message) (jsToLower keyword))

/-! ## Conversation history store

Modelled from the spec: the file `conversationHistory.ts` is imported by
`openai.ts` but is not part of the repository snapshot under `src/`.  The
operations below follow spec §4.2: `getMessages` lazily initializes the
sequence with the system prompt turn, `addMessage` appends a turn,
`countTokens` is an abstract deterministic map from a turn sequence to a
token count (kept as an explicit function parameter everywhere), and
`trimContext` removes the oldest non-system turns, one at a time, until the
token count is at most the token limit or only system turns remain,
returning whether any trimming occurred. -/

/-- Modelled from the spec: remove the oldest (leftmost) non-system turn,
or return `none` when every turn is a system turn. -/
def removeOldestNonSystem : List ChatMessage → Option (List ChatMessage)
  | [] => none
  | m :: rest =>
    if m.role = Role.system then
      (removeOldestNonSystem rest).map (fun r => m :: r)
    else some rest

/-- Modelled from the spec: the trimming loop of `trimContext`, with fuel
bounding the number of removals (each removal drops exactly one turn, so
fuel equal to the list length always suffices). -/
def trimContextGo (countTokens : List ChatMessage → Nat) (tokenLimit : Nat) :
    Nat → List ChatMessage → Bool → List ChatMessage × Bool
  | 0, msgs, trimmed => (msgs, trimmed)
  | fuel + 1, msgs, trimmed =>
    if countTokens msgs ≤ tokenLimit then (msgs, trimmed)
    else
      match removeOldestNonSystem msgs with
      | none => (msgs, trimmed)
      | some msgs' => trimContextGo countTokens tokenLimit fuel msgs' true

/-- Modelled from the spec: `trimContext(messages)` — drop the oldest
non-system turns until the count fits or only system turns remain; the
boolean reports whether any trimming occurred. -/
def trimContext (countTokens : List ChatMessage → Nat) (tokenLimit : Nat)
    (msgs : List ChatMessage) : List ChatMessage × Bool :=
  trimContextGo countTokens tokenLimit msgs.length msgs false

/-- Modelled from the spec: `getMessages` — the stored turn sequence, lazily
initialized with the system prompt turn (`none` models a conversation id
that has never been accessed). -/
def getMessages (systemPrompt : String) (stored : Option (List ChatMessage)) :
    List ChatMessage :=
  stored.getD [systemMsg systemPrompt]

/-- One step of a conversation-history mutation sequence: appending a turn
(`addMessage`) or trimming (`trimContext`). -/
inductive HistOp where
  | add (m : ChatMessage)
  | trim
deriving Repr

/-- Modelled from the spec: apply one history operation to the stored turn
sequence. -/
def applyHistOp (countTokens : List ChatMessage → Nat) (tokenLimit : Nat)
    (st : List ChatMessage) : HistOp → List ChatMessage
  | HistOp.add m => st ++ [m]
  | HistOp.trim => (trimContext countTokens tokenLimit st).1

/-- Modelled from the spec: run a sequence of `addMessage`/`trimContext`
operations on a freshly initialized conversation. -/
def runHistOps (countTokens : List ChatMessage → Nat) (tokenLimit : Nat)
    (systemPrompt : String) (ops : List HistOp) : List ChatMessage :=
  ops.foldl (applyHistOp countTokens tokenLimit) [systemMsg systemPrompt]

/-! ## Knowledge-context application (`openai.ts`, `applyKnowledgeContext`) -/

/-- Result record of `applyKnowledgeContext`:
`{ messages, applied, chunksUsed }`. -/
structure ApplyResult where
  messages : List ChatMessage
  applied : Bool
  chunksUsed : Nat
deriving DecidableEq, Repr

/-- Embeds `splice(length - 1, 0, m)`: insert `m` immediately before the
final element (before the user turn); on an empty list, insert at the
front, matching the JavaScript clamping of a negative start index. -/
def insertBeforeLast (l : List ChatMessage) (m : ChatMessage) :
    List ChatMessage :=
  l.take (l.length - 1) ++ [m] ++ l.drop (l.length - 1)

/-- Embeds the scanning loop inside `extractChunksUpTo`: walk the context
lines, counting chunk-start lines (prefix `"- ("`), break once the chunk
count would exceed `numChunks`, and keep every line seen while the running
chunk count is at most `numChunks`. -/
def chunkLinesLoop (numChunks : Nat) : Nat → List String → List String
  | _, [] => []
  | currentChunk, line :: rest =>
    if jsStartsWith line "- (" then
      if numChunks ≤ currentChunk then []
      else
        if currentChunk + 1 ≤ numChunks then
          line :: chunkLinesLoop numChunks (currentChunk + 1) rest
        else chunkLinesLoop numChunks (currentChunk + 1) rest
    else
      if currentChunk ≤ numChunks then
        line :: chunkLinesLoop numChunks currentChunk rest
      else chunkLinesLoop numChunks currentChunk rest

/-- Embeds `extractChunksUpTo` from `openai.ts`: split the rendered context
block into non-blank lines, keep the header line, and re-assemble the first
`numChunks` chunks by line-prefix matching. -/
def extractChunksUpTo (fullContent : String) (numChunks : Nat) : String :=
  let lines := (jsSplitLines fullContent).filter hasNonWhitespace
  let contextLines := lines.drop 1
  let chunkLines := chunkLinesLoop numChunks 0 contextLines
  match lines with
  | [] => String.intercalate "\n" chunkLines
  | l0 :: _ => l0 ++ "\n" ++ String.intercalate "\n" chunkLines

/-- Embeds `applyKnowledgeContext` from `openai.ts` (current revision):
degenerate contexts (null, empty entry list, non-string or empty rendered
content) pass through untouched; otherwise the degradation tiers
full → 3 → 1 → 0 are tried in order, first fit winning, where each tier
inserts its context message immediately before the final turn and fits iff
`countTokens ≤ tokenLimit`.  (The TypeScript guard `if (firstEntry)` inside
the 1-chunk tier is always true — entries are objects — and is elided.) -/
def applyKnowledgeContext (countTokens : List ChatMessage → Nat)
    (tokenLimit : Nat) (requestMessages : List ChatMessage)
    (knowledgeContext : Option KnowledgeContext) : ApplyResult :=
  match knowledgeContext with
  | none => ⟨requestMessages, false, 0⟩
  | some kc =>
    let originalEntries := kc.entries
    let fullContent :=
      match kc.message.content with
      | some s => s
      | none => ""
    if fullContent = "" ∨ originalEntries.length = 0 then
      ⟨requestMessages, false, 0⟩
    else
      let fullContext : ChatMessage := ⟨Role.system, some fullContent⟩
      let messagesWithFullKnowledge :=
        insertBeforeLast requestMessages fullContext
      if countTokens messagesWithFullKnowledge ≤ tokenLimit then
        ⟨messagesWithFullKnowledge, true, originalEntries.length⟩
      else
        let afterThreeTier : ApplyResult :=
          if 1 < originalEntries.length then
            let singleContext : ChatMessage :=
              ⟨Role.system, some (extractChunksUpTo fullContent 1)⟩
            let messagesWithSingleKnowledge :=
              insertBeforeLast requestMessages singleContext
            if countTokens messagesWithSingleKnowledge ≤ tokenLimit then
              ⟨messagesWithSingleKnowledge, true, 1⟩
            else ⟨requestMessages, false, 0⟩
          else ⟨requestMessages, false, 0⟩
        if 3 < originalEntries.length then
          let reducedContext : ChatMessage :=
            ⟨Role.system, some (extractChunksUpTo fullContent 3)⟩
          let messagesWithReducedKnowledge :=
            insertBeforeLast requestMessages reducedContext
          if countTokens messagesWithReducedKnowledge ≤ tokenLimit then
            ⟨messagesWithReducedKnowledge, true, 3⟩
          else afterThreeTier
        else afterThreeTier

/-! ## Knowledge retriever (`knowledgeBase.ts`, `buildKnowledgeContext`)

Numbers coming back from the vector backend (distances) are modelled as
`Rat`; a missing or non-numeric distance is `none`.  The external calls
(collection resolution, embedding, vector query) are parameters given as
`Except`-valued outcomes, so that the try/catch structure of the source can
be embedded faithfully. -/

/-- Metadata record of a vector-store result: `title` or `source` is `none`
when the field is absent or not a string. -/
structure Metadata where
  title : Option String
  source : Option String
deriving DecidableEq, Repr

/-- Raw vector-store query result: the three parallel arrays
`documents[0]`, `metadatas[0]`, `distances[0]`.  Inner `none` models a
`null` entry. -/
structure RawQueryResult where
  documents : List (Option String)
  metadatas : List (Option Metadata)
  distances : List (Option Rat)
deriving DecidableEq, Repr

/-- One mapped result item, mirroring the object literal built inside
`buildKnowledgeContext` (`{document, metadata, title, source, distance,
similarity}`; the raw `metadata` field is dropped since only its projections
are used). -/
structure ResultItem where
  document : Option String
  title : String
  source : String
  distance : Option Rat
  similarity : Option Rat
deriving DecidableEq, Repr

/-- Embeds `(metadatas[index] ?? {})`: out-of-range or `null` becomes the
empty metadata record. -/
def lookupMeta (metadatas : List (Option Metadata)) (i : Nat) : Metadata :=
  ((metadatas.get? i).join).getD ⟨none, none⟩

/-- Embeds `distances[index]` with `null` for out-of-range entries. -/
def lookupDistance (distances : List (Option Rat)) (i : Nat) : Option Rat :=
  (distances.get? i).join

/-- Embeds the per-result mapping: default title `snippet-<index+1>`,
default source `"unknown"`, similarity `1 - distance`. -/
def mkResultItem (metadatas : List (Option Metadata))
    (distances : List (Option Rat)) (i : Nat) (doc : Option String) :
    ResultItem :=
  let md := lookupMeta metadatas i
  let title := md.title.getD ("snippet-" ++ toString (i + 1))
  let source := md.source.getD "unknown"
  let distance := lookupDistance distances i
  let similarity := distance.map (fun d => 1 - d)
  ⟨doc, title, source, distance, similarity⟩

/-- Embeds the `documents.map((doc, index) => ...)` stage. -/
def resultItems (raw : RawQueryResult) : List ResultItem :=
  raw.documents.enum.map
    (fun p => mkResultItem raw.metadatas raw.distances p.1 p.2)

/-- Embeds the similarity-threshold filter predicate: a result passes iff
its similarity is a number and is at least the threshold. -/
def passesThreshold (threshold : Rat) (item : ResultItem) : Bool :=
  match item.similarity with
  | none => false
  | some sim => decide (threshold ≤ sim)

/-- Embeds `truncateText`: cut to `limit` characters, replacing the tail
with `"..."` when over budget. -/
def truncateText (value : String) (limit : Nat) : String :=
  if value.length ≤ limit then value
  else String.mk (value.data.take (limit - 3)) ++ "..."

/-- Embeds `Number.prototype.toFixed(4)` on a non-negative rational:
round to the nearest multiple of 1/10000, ties picking the larger value,
then print with exactly four fractional digits. -/
def ratToFixed4Abs (q : Rat) : String :=
  let scaled : Int := Rat.floor (q * 10000 + 1 / 2)
  let n : Nat := scaled.toNat
  let ip := n / 10000
  let fp := n % 10000
  let fs := toString fp
  let pad := String.mk (List.replicate (4 - fs.length) '0')
  toString ip ++ "." ++ pad ++ fs

/-- Embeds `Number.prototype.toFixed(4)`: negative values print a leading
minus applied to the rounded absolute value. -/
def ratToFixed4 (q : Rat) : String :=
  if q < 0 then "-" ++ ratToFixed4Abs (-q) else ratToFixed4Abs q

/-- Embeds the per-snippet rendered line, including the score fragment and
the literal run of spaces present in the source template. -/
def renderEntryLine (perDocumentLimit : Nat) (item : ResultItem) : String :=
  let scoreFragment :=
    match item.distance with
    | some d => " | score: " ++ ratToFixed4 d
    | none => ""
  "- (" ++ item.title ++ " | source: " ++ item.source ++ scoreFragment ++
    "          ) " ++ truncateText (item.document.getD "") perDocumentLimit

/-- Embeds the final rendering stage of `buildKnowledgeContext`: skip items
whose document is `null` or empty (JavaScript falsy), collect
`{title, source}` entries, and join the per-snippet lines under the
`Knowledge base context:` header. -/
def renderContext (maxChars maxResults : Nat) (selected : List ResultItem) :
    KnowledgeContext :=
  let perDocumentLimit := max 200 (maxChars / max 1 maxResults)
  let kept := selected.filter
    (fun item =>
      match item.document with
      | none => false
      | some s => !(s == ""))
  let entriesForContext : List KnowledgeEntry :=
    kept.map (fun item => ⟨item.title, item.source⟩)
  let entryLines := kept.map (renderEntryLine perDocumentLimit)
  let contextString :=
    "Knowledge base context:\n" ++ String.intercalate "\n" entryLines
  ⟨⟨Role.system, some contextString⟩, entriesForContext⟩

/-- Embeds the post-query logic of `buildKnowledgeContext`: filter by
similarity threshold; when the filtered set is empty, either return `null`
(no raw results at all) or fall back to the raw top-`maxResults` items. -/
def buildKnowledgeContextCore (threshold : Rat) (maxResults maxChars : Nat)
    (raw : RawQueryResult) : Option KnowledgeContext :=
  let items := resultItems raw
  let filteredResults := items.filter (passesThreshold threshold)
  if filteredResults.isEmpty then
    if raw.documents.isEmpty then none
    else some (renderContext maxChars maxResults (items.take maxResults))
  else some (renderContext maxChars maxResults filteredResults)

/-- Embeds the control flow of `buildKnowledgeContext` around its external
calls: a failed or unavailable collection, a failed or empty embedding
call, and a failed vector query are each caught locally and produce `null`
(`Except.ok none`); only a successful query reaches the pure core.  An
`Except.error` outcome of the whole function would model an uncaught
exception propagating to the caller. -/
def buildKnowledgeContextRun (threshold : Rat) (maxResults maxChars : Nat)
    (collectionRes : Except String (Option Unit))
    (embedRes : Except String (List (List Rat)))
    (queryRes : Except String RawQueryResult) :
    Except String (Option KnowledgeContext) :=
  match collectionRes with
  | Except.error _ => Except.ok none
  | Except.ok none => Except.ok none
  | Except.ok (some _) =>
    match embedRes with
    | Except.error _ => Except.ok none
    | Except.ok queryEmbeddings =>
      if queryEmbeddings.isEmpty then Except.ok none
      else
        match queryRes with
        | Except.error _ => Except.ok none
        | Except.ok raw =>
          Except.ok (buildKnowledgeContextCore threshold maxResults maxChars raw)

/-! ## Reply orchestrator (`openai.ts`, `generateReply`)

The chat-completion collaborator is a parameter returning either an error
message or a response; the model records every request message list sent to
it, so "the collaborator is never invoked" is expressible as an empty call
log.  `Date.now()` differences are a parameter (`elapsedMs`), and the reply
normalizer (`contentNormalizer.ts`, outside the snapshot) is a parameter. -/

/-- Chat-completion response as consumed by the orchestrator:
`choices[0].message.content` (`none` models a missing choice, missing
message, or `null` content; the empty string is separately falsy) and
`usage.total_tokens`. -/
structure LlmResp where
  content : Option String
  usageTokens : Option Nat
deriving DecidableEq, Repr

/-- Token breakdown record computed by `calculateTokenBreakdown`. -/
structure TokenBreakdown where
  totalRequestTokens : Nat
  knowledgeTokens : Nat
  userTokens : Nat
  conversationTokens : Nat
deriving DecidableEq, Repr

/-- Token report returned by `generateReply`. -/
structure GenTokens where
  totalTokens : Nat
  usageTokens : Option Nat
  requestTokens : Nat
  conversationTokens : Nat
  knowledgeTokens : Nat
  userTokens : Nat
  durationMs : Nat
deriving DecidableEq, Repr

/-- Knowledge report attached to a successful `generateReply` result. -/
structure KnowledgeContextReport where
  applied : Bool
  chunksUsed : Nat
  entries : List KnowledgeEntry
deriving DecidableEq, Repr

/-- Result of `generateReply`. -/
structure GenerateReplyResult where
  response : String
  tokens : GenTokens
  knowledgeContext : Option KnowledgeContextReport
deriving DecidableEq, Repr

/-- Observable outcome of one `generateReply` call: the returned value or
thrown error, the log of request message lists sent to the chat-completion
collaborator, and the stored conversation history after the call. -/
structure GenOutcome where
  result : Except String GenerateReplyResult
  llmCalls : List (List ChatMessage)
  finalHistory : List ChatMessage
deriving Repr

/-- Embeds `generateFallbackResponse`: the fixed fallback string with a
token report carrying only `userTokens` (mirrored into `totalTokens`),
`usageTokens: null`, zero for the remaining fields, and a `null` knowledge
report. -/
def generateFallbackResponse (userTokens : Nat) : GenerateReplyResult :=
  { response := fallbackResponse
    tokens :=
      { totalTokens := userTokens
        usageTokens := none
        requestTokens := 0
        conversationTokens := 0
        knowledgeTokens := 0
        userTokens := userTokens
        durationMs := 0 }
    knowledgeContext := none }

/-- Embeds `calculateTokenBreakdown`: total request tokens, knowledge
tokens (zero unless applied), tokens of the final turn, and the
conversation remainder floored at zero (truncated `Nat` subtraction
coincides with `Math.max(0, total - knowledge - user)`). -/
def calculateTokenBreakdown (countTokens : List ChatMessage → Nat)
    (requestMessages : List ChatMessage) (knowledgeApplied : Bool)
    (knowledgeContext : Option KnowledgeContext) : TokenBreakdown :=
  let totalRequestTokens := countTokens requestMessages
  let knowledgeTokens :=
    match knowledgeApplied, knowledgeContext with
    | true, some kc => countTokens [kc.message]
    | _, _ => 0
  let lastMessage := (requestMessages.getLast?).getD ⟨Role.user, some ""⟩
  let userTokens := countTokens [lastMessage]
  let conversationTokens := totalRequestTokens - knowledgeTokens - userTokens
  ⟨totalRequestTokens, knowledgeTokens, userTokens, conversationTokens⟩

/-- Embeds the catch block around the chat-completion call: classify the
error message (rate-limit / invalid-request / other) and re-throw a typed,
user-legible message.  The `APIError` status-code checks of the source are
not observable on a plain error message and are modelled by the substring
checks alone. -/
def classifyLlmError (errorMessage : String) : String :=
  let isRateLimitError :=
    jsIncludes errorMessage "rate_limit" || jsIncludes errorMessage "429"
  let isInvalidRequestError := jsIncludes errorMessage "invalid_request"
  if isRateLimitError then
    "OpenAI API rate limit exceeded. Please try again later."
  else if isInvalidRequestError then
    "Invalid request to OpenAI API: " ++ errorMessage
  else "OpenAI API error: " ++ errorMessage

/-- Embeds the try/catch around `knowledgeBase.buildKnowledgeContext` in
`generateReply`: a thrown error is absorbed and treated as `null`. -/
def effectiveKnowledgeContext
    (kbResult : Except String (Option KnowledgeContext)) :
    Option KnowledgeContext :=
  match kbResult with
  | Except.ok v => v
  | Except.error _ => none

/-- Embeds steps 1–2 of `generateReply`: append the user turn to the
(lazily initialized) stored history and trim it.  The first component is
the stored sequence from here on (`messages` in the source, an alias of the
stored array); the second reports whether trimming occurred
(`trimmedBeforeCall`). -/
def messagesAfterUserTurn (countTokens : List ChatMessage → Nat)
    (tokenLimit : Nat) (systemPrompt : String)
    (stored : Option (List ChatMessage)) (message : String) :
    List ChatMessage × Bool :=
  trimContext countTokens tokenLimit
    (getMessages systemPrompt stored ++ [userMsg message])

/-- Embeds the `applyKnowledgeContext(requestMessages, knowledgeContext)`
call inside `generateReply`, with `requestMessages` the copy of the stored
sequence after the user turn was appended and trimmed. -/
def appliedResult (countTokens : List ChatMessage → Nat) (tokenLimit : Nat)
    (systemPrompt : String)
    (kbResult : Except String (Option KnowledgeContext))
    (stored : Option (List ChatMessage)) (message : String) : ApplyResult :=
  applyKnowledgeContext countTokens tokenLimit
    (messagesAfterUserTurn countTokens tokenLimit systemPrompt stored
      message).1
    (effectiveKnowledgeContext kbResult)

/-- Embeds `generateReply` from `openai.ts` (current revision).  Steps:
append the user turn and trim; obtain the knowledge context (collaborator
outcome `kbResult`, errors absorbed to `null`); apply and degrade the
knowledge context; trim the request copy; compute the token breakdown; if
the query is factual and no knowledge chunks were applied, return the
fallback result without calling the chat-completion collaborator; otherwise
call it, fail on an error or on missing/empty content, normalize the reply,
append the assistant turn, trim, and return the reply with its token
report.  The second trim acts on the request copy and never touches the
stored history. -/
def generateReply (countTokens : List ChatMessage → Nat) (tokenLimit : Nat)
    (systemPrompt : String)
    (normalize : String → List KnowledgeEntry → String)
    (kbResult : Except String (Option KnowledgeContext))
    (llm : List ChatMessage → Except String LlmResp) (elapsedMs : Nat)
    (stored : Option (List ChatMessage)) (message : String) : GenOutcome :=
  let messages1 :=
    (messagesAfterUserTurn countTokens tokenLimit systemPrompt stored
      message).1
  let knowledgeContext := effectiveKnowledgeContext kbResult
  let knowledgeEntries := (knowledgeContext.map KnowledgeContext.entries).getD []
  let app := appliedResult countTokens tokenLimit systemPrompt kbResult
    stored message
  let finalRequestMessages := (trimContext countTokens tokenLimit app.messages).1
  let verifiedKnowledgeApplied :=
    app.applied && knowledgeContext.isSome && decide (0 < app.chunksUsed)
  let tokenBreakdown := calculateTokenBreakdown countTokens
    finalRequestMessages verifiedKnowledgeApplied knowledgeContext
  let hasKnowledgeContext :=
    verifiedKnowledgeApplied && decide (0 < app.chunksUsed)
  if isFactualQuery message && !hasKnowledgeContext then
    ⟨Except.ok (generateFallbackResponse tokenBreakdown.userTokens), [],
      messages1⟩
  else
    match llm finalRequestMessages with
    | Except.error e =>
      ⟨Except.error (classifyLlmError e), [finalRequestMessages], messages1⟩
    | Except.ok resp =>
      match resp.content with
      | none =>
        ⟨Except.error "No content returned from OpenAI response",
          [finalRequestMessages], messages1⟩
      | some c =>
        if c = "" then
          ⟨Except.error "No content returned from OpenAI response",
            [finalRequestMessages], messages1⟩
        else
          let normalizedContent := normalize c knowledgeEntries
          let messages2 :=
            messages1 ++ [⟨Role.assistant, some normalizedContent⟩]
          let messages3 := (trimContext countTokens tokenLimit messages2).1
          ⟨Except.ok
            { response := normalizedContent
              tokens :=
                { totalTokens := countTokens messages3
                  usageTokens := resp.usageTokens
                  requestTokens := tokenBreakdown.totalRequestTokens
                  conversationTokens := tokenBreakdown.conversationTokens
                  knowledgeTokens := tokenBreakdown.knowledgeTokens
                  userTokens := tokenBreakdown.userTokens
                  durationMs := elapsedMs }
              knowledgeContext :=
                if verifiedKnowledgeApplied then
                  knowledgeContext.map
                    (fun kc => ⟨true, app.chunksUsed, kc.entries⟩)
                else none },
            [finalRequestMessages], messages3⟩

/-! ## Concrete instances used to evaluate the model on closed inputs -/

/-- Concrete tokenizer for closed evaluations: one token per content
character. -/
def demoCountTokens (msgs : List ChatMessage) : Nat :=
  (msgs.map (fun m => (m.content.getD "").length)).sum

/-- Concrete reply normalizer for closed evaluations: the identity. -/
def demoNormalize (s : String) (_ : List KnowledgeEntry) : String := s

/-- Concrete chat-completion collaborator for closed evaluations: always
fails, so any outcome that consults it is observable. -/
def demoLlm (_ : List ChatMessage) : Except String LlmResp :=
  Except.error "unavailable"

/-- Concrete session store for closed evaluations: a single session for
conversation id `c1` with both instants at 0. -/
def demoSessions : SessionMap :=
  fun k => if k = "c1" then some ⟨0, 0⟩ else none

/-- Concrete rendered knowledge block with five single-line chunks, in the
shape produced by `buildKnowledgeContext`. -/
def demoKcContent : String :=
  "Knowledge base context:\n- (a1 | source: x) d1\n- (a2 | source: x) d2\n" ++
  "- (a3 | source: x) d3\n- (a4 | source: x) d4\n- (a5 | source: x) d5"

/-- Concrete knowledge context with five entries for closed evaluations. -/
def demoKc : KnowledgeContext :=
  ⟨⟨Role.system, some demoKcContent⟩,
   [⟨"a1", "x"⟩, ⟨"a2", "x"⟩, ⟨"a3", "x"⟩, ⟨"a4", "x"⟩, ⟨"a5", "x"⟩]⟩

/-- Concrete vector-query result whose two similarities (1/2 and 2/5) both
fall below the default threshold 7/10. -/
def rawAllBelow : RawQueryResult :=
  ⟨[some "d1", some "d2"], [some ⟨some "t1", some "s1"⟩, none],
   [some (1 / 2), some (3 / 5)]⟩

/-- Concrete vector-query result with one similarity (9/10) above the
default threshold 7/10 and one (2/5) below it. -/
def rawMixed : RawQueryResult :=
  ⟨[some "d1", some "d2"],
   [some ⟨some "t1", some "s1"⟩, some ⟨some "t2", some "s2"⟩],
   [some (1 / 10), some (3 / 5)]⟩

/-- Concrete history-operation sequence for closed evaluations: add a user
turn and an assistant turn, then trim. -/
def demoOps : List HistOp :=
  [HistOp.add (userMsg "aaaa"), HistOp.add ⟨Role.assistant, some "bbb"⟩,
   HistOp.trim]

/-- Concrete stored conversation for closed evaluations: a system turn, an
old user turn, and an old assistant turn. -/
def demoStored : Option (List ChatMessage) :=
  some [systemMsg "s", userMsg "aaaa", ⟨Role.assistant, some "bbbb"⟩]

/-! # Theorems -/

/-- C6: `isSessionExpired` returns `false` when no session exists for the
id, and otherwise returns `true` iff `now - lastActivity >= sessionTimeoutMs`;
in particular, for timeout `T` it is `false` at `T - 1` ms elapsed since
last activity and `true` at `T + 1` ms elapsed. -/
theorem isSessionExpired_boundary (T : Int) (sessions : SessionMap)
    (id : String) :
    (sessions id = none →
      ∀ now : Int, isSessionExpired T sessions id now = false)
    ∧ (∀ s, sessions id = some s → ∀ now : Int,
        (isSessionExpired T sessions id now = true ↔ T ≤ now - s.lastActivity))
    ∧ (∀ s, sessions id = some s →
        isSessionExpired T sessions id (s.lastActivity + (T - 1)) = false)
    ∧ (∀ s, sessions id = some s →
        isSessionExpired T sessions id (s.lastActivity + (T + 1)) = true) := by
  refine ⟨fun h now => ?_, fun s hs now => ?_, fun s hs => ?_, fun s hs => ?_⟩
  · simp [isSessionExpired, h]
  · simp [isSessionExpired, hs]
  · simp only [isSessionExpired, hs, decide_eq_false_iff_not]
    omega
  · simp only [isSessionExpired, hs, decide_eq_true_eq]
    omega

/-- C6 witness: concrete boundary evaluation with timeout 100 and last
activity at instant 0 — not expired for an unknown id, not expired at 99,
expired at 101. -/
theorem isSessionExpired_boundary_witness :
    isSessionExpired 100 demoSessions "c2" 50 = false
    ∧ isSessionExpired 100 demoSessions "c1" 99 = false
    ∧ isSessionExpired 100 demoSessions "c1" 101 = true := by
  refine ⟨(isSessionExpired_boundary 100 demoSessions "c2").1 rfl 50, ?_, ?_⟩
  · have h := (isSessionExpired_boundary 100 demoSessions "c1").2.2.1 ⟨0, 0⟩ rfl
    norm_num at h
    exact h
  · have h := (isSessionExpired_boundary 100 demoSessions "c1").2.2.2 ⟨0, 0⟩ rfl
    norm_num at h
    exact h

/-- C7: every session satisfies `lastActivity >= startTime`: creation sets
both to the same instant, and `updateActivity` only moves `lastActivity`
forward (to the current, later instant) and never changes `startTime`; the
well-formedness of the whole store is preserved. -/
theorem updateActivity_invariant (sessions : SessionMap) (t now : Int)
    (id : String) (hwf : sessionsWF sessions t) (hmono : t ≤ now) :
    sessionsWF (updateActivity now sessions id) now
    ∧ (sessions id = none →
        updateActivity now sessions id id = some ⟨now, now⟩)
    ∧ (∀ s, sessions id = some s →
        updateActivity now sessions id id = some ⟨s.startTime, now⟩)
    ∧ (∀ k, k ≠ id → updateActivity now sessions id k = sessions k)
    ∧ (∀ s, sessions id = some s → s.lastActivity ≤ now) := by
  refine ⟨?_, ?_, ?_, ?_, ?_⟩
  · intro k s hk
    unfold updateActivity at hk
    by_cases hkid : k = id
    · simp only [hkid, if_pos rfl] at hk
      cases hex : sessions id with
      | none =>
        rw [hex] at hk
        cases hk
        exact ⟨le_refl now, le_refl now⟩
      | some existing =>
        rw [hex] at hk
        cases hk
        have h := hwf id existing hex
        exact ⟨le_trans h.1 (le_trans h.2 hmono), le_refl now⟩
    · simp only [if_neg hkid] at hk
      have h := hwf k s hk
      exact ⟨h.1, le_trans h.2 hmono⟩
  · intro h
    unfold updateActivity
    simp [h]
  · intro s hs
    unfold updateActivity
    simp [hs]
  · intro k hk
    unfold updateActivity
    simp [hk]
  · intro s hs
    exact le_trans (hwf id s hs).2 hmono

/-- C7 witness: starting from the empty store at instant 0, creating a
session at instant 5 and updating it at instant 9 keeps the store
well-formed, with `startTime` fixed at 5 and `lastActivity` moved to 9. -/
theorem updateActivity_invariant_witness :
    sessionsWF (updateActivity 5 emptySessions "c1") 5
    ∧ updateActivity 9 (updateActivity 5 emptySessions "c1") "c1" "c1"
        = some ⟨5, 9⟩ := by
  have base : sessionsWF emptySessions 0 := by
    intro id s h
    cases h
  have h5 := updateActivity_invariant emptySessions 0 5 "c1" base (by norm_num)
  refine ⟨h5.1, ?_⟩
  have h9 := updateActivity_invariant (updateActivity 5 emptySessions "c1")
    5 9 "c1" h5.1 (by norm_num)
  have hlook : updateActivity 5 emptySessions "c1" "c1" = some ⟨5, 5⟩ :=
    h5.2.1 rfl
  have := h9.2.2.1 ⟨5, 5⟩ hlook
  simpa using this

/-- C8: `getSessionAgeMs` and `getTimeUntilExpirationMs` return `null` iff
no session exists for the id, otherwise non-negative millisecond values,
with time-until-expiration equal to 0 once the session is expired. -/
theorem session_accessors_nonnegative (T : Int) (sessions : SessionMap)
    (id : String) (t now : Int) (hwf : sessionsWF sessions t)
    (hmono : t ≤ now) :
    (getSessionAgeMs sessions id now = none ↔ sessions id = none)
    ∧ (getTimeUntilExpirationMs T sessions id now = none ↔ sessions id = none)
    ∧ (∀ v, getSessionAgeMs sessions id now = some v → 0 ≤ v)
    ∧ (∀ v, getTimeUntilExpirationMs T sessions id now = some v → 0 ≤ v)
    ∧ (∀ s, sessions id = some s → isSessionExpired T sessions id now = true →
        getTimeUntilExpirationMs T sessions id now = some 0) := by
  refine ⟨?_, ?_, ?_, ?_, ?_⟩
  · unfold getSessionAgeMs
    cases h : sessions id <;> simp
  · unfold getTimeUntilExpirationMs
    cases h : sessions id <;> simp
  · intro v hv
    unfold getSessionAgeMs at hv
    cases h : sessions id with
    | none => rw [h] at hv; cases hv
    | some s =>
      rw [h] at hv
      have hv' : now - s.startTime = v := Option.some.inj hv
      have hs := hwf id s h
      omega
  · intro v hv
    unfold getTimeUntilExpirationMs at hv
    cases h : sessions id with
    | none => rw [h] at hv; cases hv
    | some s =>
      rw [h] at hv
      have hv' : max 0 (T - (now - s.lastActivity)) = v := Option.some.inj hv
      have : (0 : Int) ≤ max 0 (T - (now - s.lastActivity)) := le_max_left 0 _
      omega
  · intro s hs hexp
    unfold isSessionExpired at hexp
    rw [hs] at hexp
    simp only [decide_eq_true_eq] at hexp
    unfold getTimeUntilExpirationMs
    rw [hs]
    show some (max 0 (T - (now - s.lastActivity))) = some 0
    congr 1
    omega

/-- C8 witness: for the concrete store with one session at instant 0 and
timeout 100, the accessors are `null` exactly for the unknown id,
non-negative for the known id, and the time until expiration is 0 at
instant 150 (expired). -/
theorem session_accessors_nonnegative_witness :
    getSessionAgeMs demoSessions "c2" 150 = none
    ∧ (∀ v, getSessionAgeMs demoSessions "c1" 150 = some v → 0 ≤ v)
    ∧ getTimeUntilExpirationMs 100 demoSessions "c1" 150 = some 0 := by
  have h := session_accessors_nonnegative 100 demoSessions "c1" 0 150
    (by intro id s hs
        by_cases hid : id = "c1"
        · subst hid
          simp only [demoSessions, if_pos rfl] at hs
          cases hs
          exact ⟨le_refl 0, le_refl 0⟩
        · simp only [demoSessions, if_neg hid] at hs
          cases hs)
    (by norm_num)
  have h2 := session_accessors_nonnegative 100 demoSessions "c2" 0 150
    (by intro id s hs
        by_cases hid : id = "c1"
        · subst hid
          simp only [demoSessions, if_pos rfl] at hs
          cases hs
          exact ⟨le_refl 0, le_refl 0⟩
        · simp only [demoSessions, if_neg hid] at hs
          cases hs)
    (by norm_num)
  refine ⟨h2.1.mpr rfl, h.2.2.1, ?_⟩
  have := h.2.2.2.2 ⟨0, 0⟩ rfl (by decide)
  exact this

/-- C10: a `null` knowledge context, an empty entry list, or a rendered
message whose content is not a non-empty string makes
`applyKnowledgeContext` return the request list unchanged with
`applied = false` and `chunksUsed = 0`, exactly as for no context at all. -/
theorem applyKnowledgeContext_degenerate
    (countTokens : List ChatMessage → Nat) (tokenLimit : Nat)
    (req : List ChatMessage) (okc : Option KnowledgeContext)
    (h : okc = none ∨ ∃ kc, okc = some kc ∧
      (kc.entries = [] ∨ kc.message.content = none ∨
        kc.message.content = some "")) :
    applyKnowledgeContext countTokens tokenLimit req okc = ⟨req, false, 0⟩
    ∧ applyKnowledgeContext countTokens tokenLimit req okc
        = applyKnowledgeContext countTokens tokenLimit req none := by
  have hnone : applyKnowledgeContext countTokens tokenLimit req none
      = ⟨req, false, 0⟩ := rfl
  rcases h with h | ⟨kc, hkc, hdeg⟩
  · subst h
    exact ⟨rfl, rfl⟩
  · subst hkc
    have hguard :
        ((match kc.message.content with
          | some s => s
          | none => "") = "" ∨ kc.entries.length = 0) := by
      rcases hdeg with h1 | h2 | h3
      · right
        rw [h1]
        rfl
      · left
        rw [h2]
      · left
        rw [h3]
    have hmain : applyKnowledgeContext countTokens tokenLimit req (some kc)
        = ⟨req, false, 0⟩ := by
      simp only [applyKnowledgeContext]
      rw [if_pos hguard]
    exact ⟨hmain, hmain.trans hnone.symm⟩

/-- C10 witness: a context with a rendered message but an empty entry list
passes through unchanged, and a `null` content does too. -/
theorem applyKnowledgeContext_degenerate_witness :
    applyKnowledgeContext demoCountTokens 100 [systemMsg "p", userMsg "q"]
      (some ⟨⟨Role.system, some demoKcContent⟩, []⟩)
      = ⟨[systemMsg "p", userMsg "q"], false, 0⟩
    ∧ applyKnowledgeContext demoCountTokens 100 [systemMsg "p", userMsg "q"]
      (some ⟨⟨Role.system, none⟩, [⟨"a1", "x"⟩]⟩)
      = ⟨[systemMsg "p", userMsg "q"], false, 0⟩ := by
  constructor
  · exact (applyKnowledgeContext_degenerate demoCountTokens 100
      [systemMsg "p", userMsg "q"] _
      (Or.inr ⟨_, rfl, Or.inl rfl⟩)).1
  · exact (applyKnowledgeContext_degenerate demoCountTokens 100
      [systemMsg "p", userMsg "q"] _
      (Or.inr ⟨_, rfl, Or.inr (Or.inl rfl)⟩)).1

/-- C2: on a non-degenerate knowledge context, `applyKnowledgeContext`
tries the degradation tiers in strict order with first fit winning — the
full context, then (only if more than 3 snippets were available) the
3-chunk extraction, then (only if more than 1 snippet was available) the
1-chunk extraction, then no context — where a tier fits iff inserting its
context message immediately before the final turn keeps
`countTokens ≤ tokenLimit`; the chosen chunk count never exceeds the
available count, descending through `length → 3 → 1 → 0`. -/
theorem applyKnowledgeContext_tier_order
    (countTokens : List ChatMessage → Nat) (tokenLimit : Nat)
    (req : List ChatMessage) (kc : KnowledgeContext) (s : String)
    (hc : kc.message.content = some s) (hs : s ≠ "")
    (he : kc.entries ≠ []) :
    (applyKnowledgeContext countTokens tokenLimit req (some kc) =
      (if countTokens (insertBeforeLast req ⟨Role.system, some s⟩)
          ≤ tokenLimit then
        (⟨insertBeforeLast req ⟨Role.system, some s⟩, true,
          kc.entries.length⟩ : ApplyResult)
      else if 3 < kc.entries.length ∧
          countTokens (insertBeforeLast req
            ⟨Role.system, some (extractChunksUpTo s 3)⟩) ≤ tokenLimit then
        ⟨insertBeforeLast req ⟨Role.system, some (extractChunksUpTo s 3)⟩,
          true, 3⟩
      else if 1 < kc.entries.length ∧
          countTokens (insertBeforeLast req
            ⟨Role.system, some (extractChunksUpTo s 1)⟩) ≤ tokenLimit then
        ⟨insertBeforeLast req ⟨Role.system, some (extractChunksUpTo s 1)⟩,
          true, 1⟩
      else ⟨req, false, 0⟩))
    ∧ (applyKnowledgeContext countTokens tokenLimit req (some kc)).chunksUsed
        ≤ kc.entries.length := by
  have hguard :
      ¬ ((match kc.message.content with
          | some s' => s'
          | none => "") = "" ∨ kc.entries.length = 0) := by
    rw [hc]
    rintro (h1 | h2)
    · exact hs h1
    · exact he (List.length_eq_zero.mp h2)
  have hmain : applyKnowledgeContext countTokens tokenLimit req (some kc) =
      (if countTokens (insertBeforeLast req ⟨Role.system, some s⟩)
          ≤ tokenLimit then
        (⟨insertBeforeLast req ⟨Role.system, some s⟩, true,
          kc.entries.length⟩ : ApplyResult)
      else if 3 < kc.entries.length ∧
          countTokens (insertBeforeLast req
            ⟨Role.system, some (extractChunksUpTo s 3)⟩) ≤ tokenLimit then
        ⟨insertBeforeLast req ⟨Role.system, some (extractChunksUpTo s 3)⟩,
          true, 3⟩
      else if 1 < kc.entries.length ∧
          countTokens (insertBeforeLast req
            ⟨Role.system, some (extractChunksUpTo s 1)⟩) ≤ tokenLimit then
        ⟨insertBeforeLast req ⟨Role.system, some (extractChunksUpTo s 1)⟩,
          true, 1⟩
      else ⟨req, false, 0⟩) := by
    simp only [applyKnowledgeContext]
    rw [if_neg hguard, hc]
    by_cases h1 : countTokens (insertBeforeLast req ⟨Role.system, some s⟩)
        ≤ tokenLimit
    · simp [h1]
    · by_cases h2 : 3 < kc.entries.length
      all_goals by_cases h3 : countTokens (insertBeforeLast req
        ⟨Role.system, some (extractChunksUpTo s 3)⟩) ≤ tokenLimit
      all_goals by_cases h4 : 1 < kc.entries.length
      all_goals by_cases h5 : countTokens (insertBeforeLast req
        ⟨Role.system, some (extractChunksUpTo s 1)⟩) ≤ tokenLimit
      all_goals simp [h1, h2, h3, h4, h5]
  refine ⟨hmain, ?_⟩
  rw [hmain]
  split_ifs with h1 h2 h3
  · exact le_refl _
  · exact le_of_lt h2.1
  · exact le_of_lt h3.1
  · exact Nat.zero_le _

set_option maxRecDepth 20000 in
/-- C2 witness: five available chunks with a budget that rejects the full
context but accepts the 3-chunk extraction — the middle tier is chosen with
`chunksUsed = 3`. -/
theorem applyKnowledgeContext_tier_order_witness :
    applyKnowledgeContext demoCountTokens 100 [systemMsg "p", userMsg "q"]
      (some demoKc)
      = ⟨[systemMsg "p",
          ⟨Role.system, some (extractChunksUpTo demoKcContent 3)⟩,
          userMsg "q"], true, 3⟩ := by
  have h := (applyKnowledgeContext_tier_order demoCountTokens 100
    [systemMsg "p", userMsg "q"] demoKc demoKcContent rfl (by decide)
    (by decide)).1
  rw [h]
  decide

/-- C3: `buildKnowledgeContext`'s post-query selection — with zero raw
results the result is `null`; with at least one raw result but every
similarity below the threshold the result is not `null` and uses the raw
top-`maxResults` items unfiltered; and a below-threshold item is excluded
whenever some other item is at or above the threshold. -/
theorem buildKnowledgeContext_threshold_policy (threshold : Rat)
    (maxResults maxChars : Nat) (raw : RawQueryResult) :
    (raw.documents = [] →
      buildKnowledgeContextCore threshold maxResults maxChars raw = none)
    ∧ (raw.documents ≠ [] →
        (∀ item ∈ resultItems raw, passesThreshold threshold item = false) →
        buildKnowledgeContextCore threshold maxResults maxChars raw
          = some (renderContext maxChars maxResults
              ((resultItems raw).take maxResults)))
    ∧ (∀ item ∈ resultItems raw, passesThreshold threshold item = false →
        (∃ other ∈ resultItems raw, passesThreshold threshold other = true) →
        buildKnowledgeContextCore threshold maxResults maxChars raw
          = some (renderContext maxChars maxResults
              ((resultItems raw).filter (passesThreshold threshold)))
        ∧ item ∉ (resultItems raw).filter (passesThreshold threshold)) := by
  refine ⟨?_, ?_, ?_⟩
  · intro hd
    simp [buildKnowledgeContextCore, resultItems, hd]
  · intro hd hall
    have hfil : (resultItems raw).filter (passesThreshold threshold) = [] := by
      apply List.filter_eq_nil_iff.mpr
      intro a ha
      simp [hall a ha]
    cases hdoc : raw.documents with
    | nil => exact absurd hdoc hd
    | cons d ds => simp [buildKnowledgeContextCore, hfil, hdoc]
  · intro item hmem hbelow hother
    obtain ⟨other, homem, hpass⟩ := hother
    have hmemf : other ∈ (resultItems raw).filter (passesThreshold threshold) :=
      List.mem_filter.mpr ⟨homem, hpass⟩
    have hfalse :
        ((resultItems raw).filter (passesThreshold threshold)).isEmpty
          = false := by
      cases hc : (resultItems raw).filter (passesThreshold threshold) with
      | nil => rw [hc] at hmemf; cases hmemf
      | cons a as => rfl
    constructor
    · simp [buildKnowledgeContextCore, hfalse]
    · intro hin
      have hp := (List.mem_filter.mp hin).2
      rw [hbelow] at hp
      cases hp

unseal Rat.sub Rat.add Rat.mul Rat.inv in
/-- C3 witness: concrete evaluations at threshold 7/10 — empty raw results
give `null`; two results both below threshold give the unfiltered top-K
fallback; and with one result at 9/10 similarity, the 2/5-similarity item
is excluded from the filtered selection. -/
theorem buildKnowledgeContext_threshold_policy_witness :
    buildKnowledgeContextCore (7 / 10) 5 1500 ⟨[], [], []⟩ = none
    ∧ buildKnowledgeContextCore (7 / 10) 5 1500 rawAllBelow
        = some (renderContext 1500 5 ((resultItems rawAllBelow).take 5))
    ∧ (⟨some "d2", "t2", "s2", some (3 / 5), some (2 / 5)⟩ : ResultItem)
        ∉ (resultItems rawMixed).filter (passesThreshold (7 / 10)) := by
  refine ⟨(buildKnowledgeContext_threshold_policy (7 / 10) 5 1500
      ⟨[], [], []⟩).1 rfl,
    (buildKnowledgeContext_threshold_policy (7 / 10) 5 1500 rawAllBelow).2.1
      (by decide) (by decide), ?_⟩
  exact ((buildKnowledgeContext_threshold_policy (7 / 10) 5 1500 rawMixed).2.2
    ⟨some "d2", "t2", "s2", some (3 / 5), some (2 / 5)⟩ (by decide) (by decide)
    ⟨⟨some "d1", "t1", "s1", some (1 / 10), some (9 / 10)⟩, by decide,
      by decide⟩).2

/-- C4: the embedded `buildKnowledgeContext` never propagates an exception:
for every collaborator outcome it evaluates to `Except.ok`, and a failed or
unavailable collection, a failed or empty embedding call, or a failed
vector query each yield `Except.ok none` (the caller sees `null`). -/
theorem buildKnowledgeContext_no_throw (threshold : Rat)
    (maxResults maxChars : Nat)
    (collectionRes : Except String (Option Unit))
    (embedRes : Except String (List (List Rat)))
    (queryRes : Except String RawQueryResult) :
    (∃ v, buildKnowledgeContextRun threshold maxResults maxChars
        collectionRes embedRes queryRes = Except.ok v)
    ∧ (((∃ e, collectionRes = Except.error e) ∨ collectionRes = Except.ok none
        ∨ (∃ e, embedRes = Except.error e) ∨ embedRes = Except.ok []
        ∨ (∃ e, queryRes = Except.error e)) →
      buildKnowledgeContextRun threshold maxResults maxChars
        collectionRes embedRes queryRes = Except.ok none) := by
  rcases collectionRes with e | oc
  · exact ⟨⟨none, rfl⟩, fun _ => rfl⟩
  · rcases oc with _ | u
    · exact ⟨⟨none, rfl⟩, fun _ => rfl⟩
    · rcases embedRes with e | l
      · exact ⟨⟨none, rfl⟩, fun _ => rfl⟩
      · rcases l with _ | ⟨v, vs⟩
        · exact ⟨⟨none, rfl⟩, fun _ => rfl⟩
        · rcases queryRes with e | raw
          · exact ⟨⟨none, rfl⟩, fun _ => rfl⟩
          · refine ⟨⟨buildKnowledgeContextCore threshold maxResults maxChars
              raw, rfl⟩, ?_⟩
            intro h
            rcases h with ⟨e, he⟩ | he | ⟨e, he⟩ | he | ⟨e, he⟩ <;>
              simp at he

/-- C4 witness: a connection-refused collection error and, separately, an
empty embedding result each produce `Except.ok none`. -/
theorem buildKnowledgeContext_no_throw_witness :
    buildKnowledgeContextRun (7 / 10) 5 1500 (Except.error "ECONNREFUSED")
      (Except.ok [[1 / 2]]) (Except.ok ⟨[], [], []⟩) = Except.ok none
    ∧ buildKnowledgeContextRun (7 / 10) 5 1500 (Except.ok (some ()))
      (Except.ok []) (Except.ok ⟨[], [], []⟩) = Except.ok none := by
  constructor
  · exact (buildKnowledgeContext_no_throw (7 / 10) 5 1500
      (Except.error "ECONNREFUSED") (Except.ok [[1 / 2]])
      (Except.ok ⟨[], [], []⟩)).2 (Or.inl ⟨_, rfl⟩)
  · exact (buildKnowledgeContext_no_throw (7 / 10) 5 1500
      (Except.ok (some ())) (Except.ok []) (Except.ok ⟨[], [], []⟩)).2
      (Or.inr (Or.inr (Or.inr (Or.inl rfl))))

/-- Removing the oldest non-system turn drops exactly one element. -/
theorem removeOldestNonSystem_length {l r : List ChatMessage}
    (h : removeOldestNonSystem l = some r) : r.length + 1 = l.length := by
  induction l generalizing r with
  | nil => cases h
  | cons m rest ih =>
    unfold removeOldestNonSystem at h
    by_cases hm : m.role = Role.system
    · rw [if_pos hm] at h
      cases hrest : removeOldestNonSystem rest with
      | none => rw [hrest] at h; cases h
      | some r' =>
        rw [hrest] at h
        have h' : some (m :: r') = some r := h
        cases Option.some.inj h'
        have := ih hrest
        simp only [List.length_cons]
        omega
    · rw [if_neg hm] at h
      cases Option.some.inj h
      rfl

/-- Removing the oldest non-system turn fails exactly when every turn is a
system turn. -/
theorem removeOldestNonSystem_none_iff {l : List ChatMessage} :
    removeOldestNonSystem l = none ↔ ∀ m ∈ l, m.role = Role.system := by
  induction l with
  | nil => simp [removeOldestNonSystem]
  | cons m rest ih =>
    unfold removeOldestNonSystem
    by_cases hm : m.role = Role.system
    · rw [if_pos hm]
      constructor
      · intro h x hx
        rcases List.mem_cons.mp hx with hx | hx
        · exact hx ▸ hm
        · have hnone : removeOldestNonSystem rest = none := by
            cases hrest : removeOldestNonSystem rest with
            | none => rfl
            | some r' => rw [hrest] at h; cases h
          exact (ih.mp hnone) x hx
      · intro h
        have hnone : removeOldestNonSystem rest = none :=
          ih.mpr (fun x hx => h x (List.mem_cons_of_mem m hx))
        rw [hnone]
        rfl
    · rw [if_neg hm]
      constructor
      · intro h; cases h
      · intro h
        exact absurd (h m (List.mem_cons_self m rest)) hm

/-- Removing the oldest non-system turn preserves a leading system turn. -/
theorem removeOldestNonSystem_head {l r : List ChatMessage} {m : ChatMessage}
    (hh : l.head? = some m) (hm : m.role = Role.system)
    (h : removeOldestNonSystem l = some r) : r.head? = some m := by
  cases l with
  | nil => cases hh
  | cons a rest =>
    have ha : a = m := Option.some.inj hh
    subst ha
    unfold removeOldestNonSystem at h
    rw [if_pos hm] at h
    cases hrest : removeOldestNonSystem rest with
    | none => rw [hrest] at h; cases h
    | some r' =>
      rw [hrest] at h
      have h' : some (a :: r') = some r := h
      cases Option.some.inj h'
      rfl

/-- Removing the oldest non-system turn preserves the number of system
turns. -/
theorem removeOldestNonSystem_countP {l r : List ChatMessage}
    (h : removeOldestNonSystem l = some r) :
    r.countP (fun x => x.role == Role.system)
      = l.countP (fun x => x.role == Role.system) := by
  induction l generalizing r with
  | nil => cases h
  | cons m rest ih =>
    unfold removeOldestNonSystem at h
    by_cases hm : m.role = Role.system
    · rw [if_pos hm] at h
      cases hrest : removeOldestNonSystem rest with
      | none => rw [hrest] at h; cases h
      | some r' =>
        rw [hrest] at h
        have h' : some (m :: r') = some r := h
        cases Option.some.inj h'
        simp only [List.countP_cons, ih hrest]
    · rw [if_neg hm] at h
      cases Option.some.inj h
      have hmb : (m.role == Role.system) = false := by
        simpa using hm
      simp [List.countP_cons, hmb]

/-- The trimming loop either returns its input unchanged or reports
trimming and strictly shrinks the list. -/
theorem trimContextGo_cases (ct : List ChatMessage → Nat) (lim : Nat) :
    ∀ (fuel : Nat) (msgs : List ChatMessage) (b : Bool),
      trimContextGo ct lim fuel msgs b = (msgs, b)
      ∨ ((trimContextGo ct lim fuel msgs b).2 = true
          ∧ (trimContextGo ct lim fuel msgs b).1.length < msgs.length) := by
  intro fuel
  induction fuel with
  | zero => intro msgs b; exact Or.inl rfl
  | succ n ih =>
    intro msgs b
    unfold trimContextGo
    by_cases hc : ct msgs ≤ lim
    · rw [if_pos hc]; exact Or.inl rfl
    · rw [if_neg hc]
      cases hrem : removeOldestNonSystem msgs with
      | none => exact Or.inl rfl
      | some msgs' =>
        have hlen := removeOldestNonSystem_length hrem
        show trimContextGo ct lim n msgs' true = (msgs, b)
          ∨ ((trimContextGo ct lim n msgs' true).2 = true
              ∧ (trimContextGo ct lim n msgs' true).1.length < msgs.length)
        rcases ih msgs' true with hcase | ⟨hflag, hlt⟩
        · rw [hcase]
          right
          refine ⟨rfl, ?_⟩
          show msgs'.length < msgs.length
          omega
        · right
          exact ⟨hflag, by omega⟩

/-- The trimming loop preserves a leading system turn. -/
theorem trimContextGo_head (ct : List ChatMessage → Nat) (lim : Nat)
    {m : ChatMessage} (hm : m.role = Role.system) :
    ∀ (fuel : Nat) (msgs : List ChatMessage) (b : Bool),
      msgs.head? = some m →
      (trimContextGo ct lim fuel msgs b).1.head? = some m := by
  intro fuel
  induction fuel with
  | zero => intro msgs b hh; exact hh
  | succ n ih =>
    intro msgs b hh
    unfold trimContextGo
    by_cases hc : ct msgs ≤ lim
    · rw [if_pos hc]; exact hh
    · rw [if_neg hc]
      cases hrem : removeOldestNonSystem msgs with
      | none => exact hh
      | some msgs' =>
        exact ih msgs' true (removeOldestNonSystem_head hh hm hrem)

/-- The trimming loop preserves the number of system turns. -/
theorem trimContextGo_countP (ct : List ChatMessage → Nat) (lim : Nat) :
    ∀ (fuel : Nat) (msgs : List ChatMessage) (b : Bool),
      (trimContextGo ct lim fuel msgs b).1.countP
          (fun x => x.role == Role.system)
        = msgs.countP (fun x => x.role == Role.system) := by
  intro fuel
  induction fuel with
  | zero => intro msgs b; rfl
  | succ n ih =>
    intro msgs b
    unfold trimContextGo
    by_cases hc : ct msgs ≤ lim
    · rw [if_pos hc]
    · rw [if_neg hc]
      cases hrem : removeOldestNonSystem msgs with
      | none => rfl
      | some msgs' =>
        show (trimContextGo ct lim n msgs' true).1.countP
            (fun x => x.role == Role.system)
          = msgs.countP (fun x => x.role == Role.system)
        rw [ih msgs' true, removeOldestNonSystem_countP hrem]

/-- With enough fuel, the trimming loop stops only when the token count
fits or only system turns remain. -/
theorem trimContextGo_post (ct : List ChatMessage → Nat) (lim : Nat) :
    ∀ (fuel : Nat) (msgs : List ChatMessage) (b : Bool),
      msgs.length ≤ fuel →
      ct (trimContextGo ct lim fuel msgs b).1 ≤ lim
      ∨ ∀ x ∈ (trimContextGo ct lim fuel msgs b).1, x.role = Role.system := by
  intro fuel
  induction fuel with
  | zero =>
    intro msgs b hlen
    right
    have : msgs = [] := List.length_eq_zero.mp (Nat.le_zero.mp hlen)
    subst this
    intro x hx
    cases hx
  | succ n ih =>
    intro msgs b hlen
    unfold trimContextGo
    by_cases hc : ct msgs ≤ lim
    · rw [if_pos hc]; exact Or.inl hc
    · rw [if_neg hc]
      cases hrem : removeOldestNonSystem msgs with
      | none =>
        right
        exact removeOldestNonSystem_none_iff.mp hrem
      | some msgs' =>
        have hlen' := removeOldestNonSystem_length hrem
        exact ih msgs' true (by omega)

/-- C5: for every sequence of `addMessage`/`trimContext` operations on a
freshly initialized conversation, the system turn is present and first;
`trimContext` keeps it first, never changes the number of system turns,
reports `true` exactly when it changed the sequence, and stops only once
the token count fits or only system turns remain. -/
theorem conversationHistory_system_invariant
    (ct : List ChatMessage → Nat) (lim : Nat) (sysPrompt : String)
    (ops : List HistOp) (st : List ChatMessage)
    (hst : st = runHistOps ct lim sysPrompt ops) :
    st.head? = some (systemMsg sysPrompt)
    ∧ (trimContext ct lim st).1.head? = some (systemMsg sysPrompt)
    ∧ (trimContext ct lim st).1.countP (fun x => x.role == Role.system)
        = st.countP (fun x => x.role == Role.system)
    ∧ ((trimContext ct lim st).2 = true ↔ (trimContext ct lim st).1 ≠ st)
    ∧ (ct (trimContext ct lim st).1 ≤ lim
        ∨ ∀ x ∈ (trimContext ct lim st).1, x.role = Role.system) := by
  have hrole : (systemMsg sysPrompt).role = Role.system := rfl
  have hhead : ∀ (l : List HistOp) (s : List ChatMessage),
      s.head? = some (systemMsg sysPrompt) →
      (l.foldl (applyHistOp ct lim) s).head? = some (systemMsg sysPrompt) := by
    intro l
    induction l with
    | nil => intro s hs; exact hs
    | cons op rest ih =>
      intro s hs
      apply ih
      cases op with
      | add m =>
        cases s with
        | nil => cases hs
        | cons a t => exact hs
      | trim => exact trimContextGo_head ct lim hrole s.length s false hs
  have hsthead : st.head? = some (systemMsg sysPrompt) := by
    rw [hst]
    exact hhead ops [systemMsg sysPrompt] rfl
  refine ⟨hsthead, ?_, ?_, ?_, ?_⟩
  · exact trimContextGo_head ct lim hrole st.length st false hsthead
  · exact trimContextGo_countP ct lim st.length st false
  · show (trimContextGo ct lim st.length st false).2 = true
      ↔ (trimContextGo ct lim st.length st false).1 ≠ st
    rcases trimContextGo_cases ct lim st.length st false with hcase | ⟨hflag, hlt⟩
    · rw [hcase]
      simp
    · constructor
      · intro _ heq
        rw [heq] at hlt
        omega
      · intro _
        exact hflag
  · exact trimContextGo_post ct lim st.length st false (le_refl _)

/-- C5 witness: adding a user and an assistant turn under a budget of 5
character-tokens and trimming keeps the system turn present and first. -/
theorem conversationHistory_system_invariant_witness :
    (runHistOps demoCountTokens 5 "s" demoOps).head? = some (systemMsg "s")
    ∧ (trimContext demoCountTokens 5
        (runHistOps demoCountTokens 5 "s" demoOps)).1.head?
        = some (systemMsg "s") := by
  have h := conversationHistory_system_invariant demoCountTokens 5 "s"
    demoOps _ rfl
  exact ⟨h.1, h.2.1⟩

/-- C1 (amended): when the query is factual and the post-degradation
applied chunk count is zero, `generateReply` returns the fixed fallback
string without invoking the chat-completion collaborator; in the returned
token report `requestTokens`, `conversationTokens` and `knowledgeTokens`
are zero, `totalTokens` equals `userTokens` (and is in general non-zero),
`usageTokens` is `null`, and `durationMs` is zero. -/
theorem generateReply_factual_fallback (ct : List ChatMessage → Nat)
    (lim : Nat) (sysPrompt : String)
    (normalize : String → List KnowledgeEntry → String)
    (kbResult : Except String (Option KnowledgeContext))
    (llm : List ChatMessage → Except String LlmResp) (elapsedMs : Nat)
    (stored : Option (List ChatMessage)) (message : String)
    (hfact : isFactualQuery message = true)
    (hchunks :
      (appliedResult ct lim sysPrompt kbResult stored message).chunksUsed
        = 0) :
    ∃ r, (generateReply ct lim sysPrompt normalize kbResult llm elapsedMs
        stored message).result = Except.ok r
      ∧ r.response = fallbackResponse
      ∧ r.tokens.requestTokens = 0
      ∧ r.tokens.conversationTokens = 0
      ∧ r.tokens.knowledgeTokens = 0
      ∧ r.tokens.totalTokens = r.tokens.userTokens
      ∧ r.tokens.usageTokens = none
      ∧ r.tokens.durationMs = 0
      ∧ r.knowledgeContext = none
      ∧ (generateReply ct lim sysPrompt normalize kbResult llm elapsedMs
          stored message).llmCalls = [] := by
  simp only [generateReply, hfact, hchunks]
  simp only [Nat.lt_irrefl, decide_False, Bool.and_false, Bool.not_false,
    Bool.true_and, if_true]
  exact ⟨generateFallbackResponse (calculateTokenBreakdown ct
      (trimContext ct lim (appliedResult ct lim sysPrompt kbResult stored
        message).messages).1 false
      (effectiveKnowledgeContext kbResult)).userTokens,
    rfl, rfl, rfl, rfl, rfl, rfl, rfl, rfl, rfl, trivial⟩

/-- C1 witness: a factual Hebrew message (containing the keyword for
"price") with a `null` knowledge context takes the fallback path on a
concrete pipeline instance. -/
theorem generateReply_factual_fallback_witness :
    ∃ r, (generateReply demoCountTokens 100 "s" demoNormalize
        (Except.ok none) demoLlm 7 none "מחיר").result = Except.ok r
      ∧ r.response = fallbackResponse
      ∧ r.tokens.requestTokens = 0
      ∧ r.tokens.conversationTokens = 0
      ∧ r.tokens.knowledgeTokens = 0
      ∧ r.tokens.totalTokens = r.tokens.userTokens
      ∧ r.tokens.usageTokens = none
      ∧ r.tokens.durationMs = 0
      ∧ r.knowledgeContext = none
      ∧ (generateReply demoCountTokens 100 "s" demoNormalize
          (Except.ok none) demoLlm 7 none "מחיר").llmCalls = [] :=
  generateReply_factual_fallback demoCountTokens 100 "s" demoNormalize
    (Except.ok none) demoLlm 7 none "מחיר" (by decide) (by decide)

/-- C1 counterexample: on the fallback path with a 4-character user
message, the returned `totalTokens` equals 4, so the claim that every token
field other than `userTokens` is zero fails (`totalTokens` mirrors
`userTokens`, and `usageTokens` is `null`, not zero). -/
theorem generateReply_factual_fallback_cex :
    isFactualQuery "מחיר" = true
    ∧ (appliedResult demoCountTokens 100 "s" (Except.ok none) none
        "מחיר").chunksUsed = 0
    ∧ (generateReply demoCountTokens 100 "s" demoNormalize (Except.ok none)
        demoLlm 7 none "מחיר").result
        = Except.ok (generateFallbackResponse 4)
    ∧ (generateFallbackResponse 4).tokens.totalTokens ≠ 0 := by
  refine ⟨by decide, by decide, by rfl, by decide⟩

/-- C9 (amended): on the fallback path the stored history becomes
`trimContext` applied to the previous turns plus the appended user turn —
the user message is appended before knowledge retrieval, trimming may drop
the oldest non-system turns, no assistant turn is appended, and the
fallback reply itself is never stored; the chat-completion collaborator is
not invoked. -/
theorem generateReply_fallback_history_effect (ct : List ChatMessage → Nat)
    (lim : Nat) (sysPrompt : String)
    (normalize : String → List KnowledgeEntry → String)
    (kbResult : Except String (Option KnowledgeContext))
    (llm : List ChatMessage → Except String LlmResp) (elapsedMs : Nat)
    (stored : Option (List ChatMessage)) (message : String)
    (hfact : isFactualQuery message = true)
    (hchunks :
      (appliedResult ct lim sysPrompt kbResult stored message).chunksUsed
        = 0) :
    (generateReply ct lim sysPrompt normalize kbResult llm elapsedMs stored
        message).finalHistory
      = (trimContext ct lim
          (getMessages sysPrompt stored ++ [userMsg message])).1
    ∧ (generateReply ct lim sysPrompt normalize kbResult llm elapsedMs
        stored message).llmCalls = [] := by
  simp only [generateReply, hfact, hchunks]
  simp only [Nat.lt_irrefl, decide_False, Bool.and_false, Bool.not_false,
    Bool.true_and, if_true]
  refine ⟨?_, ?_⟩ <;> trivial

/-- C9 witness: with an over-budget history, the fallback path leaves the
stored history equal to the trimmed sequence ending in the new user turn,
with no assistant turn added and no chat-completion call. -/
theorem generateReply_fallback_history_effect_witness :
    (generateReply demoCountTokens 9 "s" demoNormalize (Except.ok none)
        demoLlm 7 demoStored "מחיר").finalHistory
      = (trimContext demoCountTokens 9
          (getMessages "s" demoStored ++ [userMsg "מחיר"])).1
    ∧ (generateReply demoCountTokens 9 "s" demoNormalize (Except.ok none)
        demoLlm 7 demoStored "מחיר").llmCalls = [] :=
  generateReply_fallback_history_effect demoCountTokens 9 "s" demoNormalize
    (Except.ok none) demoLlm 7 demoStored "מחיר" (by decide) (by decide)

/-- C9 counterexample: with a 9-token budget and a stored history of 9
character-tokens, appending the 4-character user message forces trimming,
so the final history is not the previous history plus exactly one new turn
— the old user turn was dropped on the same fallback call. -/
theorem generateReply_fallback_history_cex :
    isFactualQuery "מחיר" = true
    ∧ (appliedResult demoCountTokens 9 "s" (Except.ok none) demoStored
        "מחיר").chunksUsed = 0
    ∧ (generateReply demoCountTokens 9 "s" demoNormalize (Except.ok none)
        demoLlm 7 demoStored "מחיר").result
        = Except.ok (generateFallbackResponse 4)
    ∧ (generateReply demoCountTokens 9 "s" demoNormalize (Except.ok none)
        demoLlm 7 demoStored "מחיר").finalHistory
        ≠ getMessages "s" demoStored ++ [userMsg "מחיר"] := by
  refine ⟨by decide, by decide, by rfl, by decide⟩

end HFChat
